import Mathlib

set_option autoImplicit false

/-!
Verification of the nuuanu seeding-tool core (src/App.tsx, src/types.ts,
src/utils.ts) against its natural-language specification.  The TypeScript
code is shallowly embedded: React state updates become pure functions on
explicit state records, JS strings become Lean `String`s, JS numbers that
hold integers become `Int`/`Nat`, and the random id generator is an
explicit oracle parameter.
-/

namespace Nuuanu

/-! ## JS string primitives

`String.prototype.trim` and `String.prototype.toLowerCase`, restricted to
the ASCII range (the access codes and admin codes the app compares are
ASCII); whitespace is the usual JS whitespace set. -/

/-- Whitespace characters recognised by `trim`. -/
def isWs (c : Char) : Bool :=
  c = ' ' || c = '\t' || c = '\n' || c = '\r' || c = '\x0b' || c = '\x0c'

/-- Model of `s.trim()`: strip leading and trailing whitespace. -/
def jsTrim (s : String) : String :=
  String.mk (((s.data.dropWhile isWs).reverse.dropWhile isWs).reverse)

/-- ASCII lowercasing of one character, as `toLowerCase` acts on `A`–`Z`. -/
def lowerChar (c : Char) : Char :=
  if 65 ≤ c.toNat ∧ c.toNat ≤ 90 then Char.ofNat (c.toNat + 32) else c

/-- Model of `s.toLowerCase()` (ASCII fragment). -/
def jsToLower (s : String) : String :=
  String.mk (s.data.map lowerChar)

/-! ## Data model (src/types.ts) -/

/-- The `ShippingStatus` enum: `PREPARING = '준비중'`, `SHIPPED = '배송완료'`. -/
inductive ShippingStatus where
  | preparing
  | shipped
deriving DecidableEq, Repr

/-- A `Product` record. -/
structure Product where
  id : String
  name : String
  price : String
  options : List String
  description : String
  images : List String
deriving DecidableEq, Repr

/-- A `ShippingEntry` record. `quantity` is a JS number holding an integer. -/
structure ShippingEntry where
  id : String
  status : ShippingStatus
  submitDate : String
  instagramId : String
  name : String
  phone : String
  address : String
  message : String
  extra : String
  productName : String
  size : String
  quantity : Int
  adminMemo : String
deriving DecidableEq, Repr

/-- A `Collection` record (the optional `logoUrl` is never read by the
code under verification and is omitted). -/
structure Collection where
  id : String
  name : String
  accessCode : String
  maxProducts : Int
  lookbookImages : List String
  descriptionTitle : String
  descriptionBody : String
  products : List Product
  shippingEntries : List ShippingEntry
deriving DecidableEq, Repr

/-- A `CartItem` record (session-scoped, never persisted). -/
structure CartItem where
  productId : String
  productName : String
  size : String
  image : String
deriving DecidableEq, Repr

/-- The root `AppState` document. -/
structure AppState where
  collections : List Collection
  activeCollectionId : Option String
  adminAccessCode : String
deriving DecidableEq, Repr

/-! ## Access control resolver (`handleLogin`, src/App.tsx lines 97–117) -/

/-- Outcome of a login attempt. -/
inductive LoginOutcome where
  | admin
  | influencer (c : Collection)
  | denied
deriving DecidableEq, Repr

/-- Model of the decision made by `handleLogin`: trim and lowercase the
input, check the admin code first (lowercased), then scan the collections
in array order with `find?` (JS `Array.prototype.find`). -/
def resolve (input : String) (st : AppState) : LoginOutcome :=
  let code := jsToLower (jsTrim input)
  if code = jsToLower st.adminAccessCode then .admin
  else
    match st.collections.find? (fun c => jsToLower c.accessCode == code) with
    | some c => .influencer c
    | none => .denied

/-- Role of the logged-in user. -/
inductive Role where
  | admin
  | influencer
deriving DecidableEq, Repr

/-- The four top-level views of the `App` component. -/
inductive TopView where
  | login
  | selectCollection
  | adminView
  | influencerView
deriving DecidableEq, Repr

/-- The session-scoped UI state touched by `handleLogin`. -/
structure Session where
  currentUser : Option Role
  activeCollection : Option Collection
  view : TopView
deriving DecidableEq, Repr

/-- Model of `handleLogin`: the state updates performed in each branch,
with the error notification returned explicitly. -/
def handleLogin (input : String) (st : AppState) (sess : Session) :
    Session × Option String :=
  match resolve input st with
  | .admin =>
      ({ sess with currentUser := some .admin, view := .selectCollection }, none)
  | .influencer c =>
      ({ sess with activeCollection := some c, currentUser := some .influencer,
                   view := .influencerView }, none)
  | .denied => (sess, some "Invalid Access Code")

/-- Helper: `find?` returns the first match of a split list. -/
theorem find?_first {α : Type} (p : α → Bool) (pre : List α) (c : α)
    (post : List α) (hpre : ∀ x ∈ pre, p x = false) (hc : p c = true) :
    (pre ++ c :: post).find? p = some c := by
  induction pre with
  | nil => simp [List.find?, hc]
  | cons x xs ih =>
      have hx : p x = false := hpre x (List.mem_cons_self x xs)
      simp only [List.cons_append, List.find?, hx]
      exact ih (fun y hy => hpre y (List.mem_cons_of_mem x hy))

/-- C1.  Access resolution: `resolve` depends on the input only through
its trimmed, lowercased form; the admin code is checked first and wins
for every collection list; otherwise the first collection in array order
whose access code matches case-insensitively is returned; and if neither
matches the result is a denial and the session is unchanged. -/
theorem resolve_access_spec (input : String) (st : AppState) (sess : Session) :
    (∀ input2 : String, jsToLower (jsTrim input) = jsToLower (jsTrim input2) →
        resolve input st = resolve input2 st) ∧
    (jsToLower (jsTrim input) = jsToLower st.adminAccessCode →
        ∀ cs : List Collection,
          resolve input { st with collections := cs } = .admin) ∧
    (jsToLower (jsTrim input) ≠ jsToLower st.adminAccessCode →
        ∀ pre c post, st.collections = pre ++ c :: post →
          (∀ c2 ∈ pre, jsToLower c2.accessCode ≠ jsToLower (jsTrim input)) →
          jsToLower c.accessCode = jsToLower (jsTrim input) →
          resolve input st = .influencer c) ∧
    (jsToLower (jsTrim input) ≠ jsToLower st.adminAccessCode →
        (∀ c ∈ st.collections, jsToLower c.accessCode ≠ jsToLower (jsTrim input)) →
        resolve input st = .denied ∧ (handleLogin input st sess).1 = sess) := by
  refine ⟨?_, ?_, ?_, ?_⟩
  · intro input2 h
    simp only [resolve, h]
  · intro h cs
    simp [resolve, h]
  · intro hne pre c post hsplit hpre hc
    have : st.collections.find?
        (fun c2 => jsToLower c2.accessCode == jsToLower (jsTrim input)) = some c := by
      rw [hsplit]
      apply find?_first
      · intro x hx
        simpa using hpre x hx
      · simpa using hc
    simp only [resolve, if_neg hne, this]
  · intro hne hnone
    have hfind : st.collections.find?
        (fun c2 => jsToLower c2.accessCode == jsToLower (jsTrim input)) = none := by
      rw [List.find?_eq_none]
      intro x hx
      simpa using hnone x hx
    constructor
    · simp only [resolve, if_neg hne, hfind]
    · simp only [handleLogin, resolve, if_neg hne, hfind]

/-- Concrete collection used by witnesses. -/
def collWit : Collection :=
  { id := "cid1", name := "Spring", accessCode := "Code1", maxProducts := 2,
    lookbookImages := [], descriptionTitle := "t", descriptionBody := "b",
    products := [], shippingEntries := [] }

/-- Concrete app state used by witnesses. -/
def stWit : AppState :=
  { collections := [collWit], activeCollectionId := none,
    adminAccessCode := "Admin" }

/-- Concrete session used by witnesses. -/
def sessWit : Session :=
  { currentUser := none, activeCollection := none, view := .login }

/-- Witness for C1 at concrete inputs: an admin code with stray case and
whitespace logs in as admin, the collection code matches
case-insensitively, and an unknown code is denied without a session
change. -/
theorem resolve_access_spec_witness :
    resolve " ADMIN " stWit = .admin ∧
    resolve "code1" stWit = .influencer collWit ∧
    (resolve "nope" stWit = .denied ∧
      (handleLogin "nope" stWit sessWit).1 = sessWit) := by
  refine ⟨?_, ?_, ?_⟩
  · have h := (resolve_access_spec " ADMIN " stWit sessWit).2.1 (by decide)
      stWit.collections
    exact h
  · exact (resolve_access_spec "code1" stWit sessWit).2.2.1 (by decide)
      [] collWit [] rfl (by intro c2 h; cases h) (by decide)
  · exact (resolve_access_spec "nope" stWit sessWit).2.2.2 (by decide)
      (by decide)

/-! ## Cart aggregator (`addToCart`, src/App.tsx lines 934–954) -/

/-- The four views of the influencer page. -/
inductive InfView where
  | lookbook
  | productDetail
  | cartView
  | success
deriving DecidableEq, Repr

/-- The session-scoped state of the influencer page touched by
`addToCart` and `handleSubmit`. -/
structure InfSession where
  cart : List CartItem
  selectedProduct : Option Product
  selectedSize : String
  view : InfView
deriving DecidableEq, Repr

/-- The fallback image used when a product has no uploaded image. -/
def placeholderImage : String := "https://picsum.photos/seed/nuuanu/400/600"

/-- Model of `addToCart`: reject (blocking alert, no state change) when no
product or no size is selected, or when the cart already holds
`maxProducts` items; otherwise append the cart item built from the
selected product, clear the selection and return to the lookbook. -/
def addToCart (coll : Collection) (sess : InfSession) :
    InfSession × Option String :=
  match sess.selectedProduct with
  | none => (sess, some "Please select a size preference.")
  | some p =>
      if sess.selectedSize = "" then
        (sess, some "Please select a size preference.")
      else if (sess.cart.length : Int) ≥ coll.maxProducts then
        (sess, some "You have reached the selection limit.")
      else
        ({ cart := sess.cart ++
              [{ productId := p.id, productName := p.name,
                 size := sess.selectedSize,
                 image := p.images.headD placeholderImage }],
           selectedProduct := none, selectedSize := "", view := .lookbook },
         none)

/-- One cart operation available to an influencer session: selecting a
product and size and pressing add, or removing the item at an index. -/
inductive CartOp where
  | add (p : Product) (size : String)
  | remove (idx : Nat)

/-- One step of the cart under an operation.  `add` follows `addToCart`
(the session's selection set to the given product and size); `remove`
models `cart.filter((_, i) => i !== idx)`, which drops the item at `idx`
and is the identity when `idx` is out of range. -/
def cartStep (coll : Collection) (cart : List CartItem) : CartOp → List CartItem
  | .add p size =>
      (addToCart coll
        { cart := cart, selectedProduct := some p, selectedSize := size,
          view := .productDetail }).1.cart
  | .remove idx => cart.eraseIdx idx

/-- Cart contents after running a list of operations from a start cart. -/
def runCartOps (coll : Collection) (cart : List CartItem)
    (ops : List CartOp) : List CartItem :=
  ops.foldl (cartStep coll) cart

/-- Helper: one cart step never pushes the length above `maxProducts`
once it is at most `maxProducts`. -/
theorem cartStep_length_le (coll : Collection) (cart : List CartItem)
    (op : CartOp) (h : (cart.length : Int) ≤ coll.maxProducts) :
    ((cartStep coll cart op).length : Int) ≤ coll.maxProducts := by
  cases op with
  | add p size =>
      by_cases hs : size = ""
      · simpa [cartStep, addToCart, hs] using h
      · by_cases hfull : (cart.length : Int) ≥ coll.maxProducts
        · simpa [cartStep, addToCart, hs, hfull] using h
        · push_neg at hfull
          simp only [cartStep, addToCart, if_neg hs, ge_iff_le,
            if_neg (not_le.mpr hfull)]
          simp only [List.length_append, List.length_cons, List.length_nil]
          omega
  | remove idx =>
      have := List.length_eraseIdx_le cart idx
      simp only [cartStep]
      omega

/-- C2.  Cart bound: adding with the cart already at `maxProducts`, or
with no size (or no product) chosen, is rejected with a blocking alert
and the whole session is unchanged; and under any sequence of add/remove
operations a cart that starts within the bound stays within it — in
particular a session that starts from the empty cart never exceeds
`maxProducts`. -/
theorem cart_bound_spec (coll : Collection) (sess : InfSession) :
    (sess.selectedProduct = none ∨ sess.selectedSize = "" ∨
        (sess.cart.length : Int) = coll.maxProducts →
      (addToCart coll sess).1 = sess ∧ (addToCart coll sess).2.isSome) ∧
    (∀ cart : List CartItem, (cart.length : Int) ≤ coll.maxProducts →
      ∀ ops : List CartOp,
        ((runCartOps coll cart ops).length : Int) ≤ coll.maxProducts) ∧
    (0 ≤ coll.maxProducts →
      ∀ ops : List CartOp,
        ((runCartOps coll [] ops).length : Int) ≤ coll.maxProducts) := by
  have run_le : ∀ (cart : List CartItem), (cart.length : Int) ≤ coll.maxProducts →
      ∀ ops : List CartOp,
        ((runCartOps coll cart ops).length : Int) ≤ coll.maxProducts := by
    intro cart hc ops
    induction ops generalizing cart with
    | nil => simpa [runCartOps] using hc
    | cons op rest ih =>
        have h1 := cartStep_length_le coll cart op hc
        simpa [runCartOps, List.foldl_cons] using ih _ h1
  refine ⟨?_, run_le, ?_⟩
  · intro hrej
    match hp : sess.selectedProduct with
    | none => simp [addToCart, hp]
    | some p =>
        rcases hrej with h | h | h
        · rw [hp] at h; cases h
        · simp [addToCart, hp, h]
        · have hfull : (sess.cart.length : Int) ≥ coll.maxProducts := le_of_eq h.symm
          by_cases hs : sess.selectedSize = ""
          · simp [addToCart, hp, hs]
          · simp [addToCart, hp, hs, hfull]
  · intro h0 ops
    exact run_le [] (by simpa using h0) ops

/-- Concrete product used by witnesses. -/
def prodWit : Product :=
  { id := "p1", name := "Tee", price := "10000", options := ["S", "M"],
    description := "", images := [] }

/-- Concrete influencer session used by witnesses. -/
def sessInfWit : InfSession :=
  { cart := [], selectedProduct := none, selectedSize := "",
    view := .lookbook }

/-- Witness for C2 at concrete inputs: a full two-item cart rejects a
further add unchanged, and the run from the empty cart stays within the
bound `2` of `collWit`. -/
theorem cart_bound_spec_witness :
    ((addToCart collWit
        { cart := [{ productId := "p1", productName := "Tee", size := "S",
                     image := "" },
                   { productId := "p1", productName := "Tee", size := "M",
                     image := "" }],
          selectedProduct := some prodWit, selectedSize := "M",
          view := .productDetail }).1.cart.length = 2) ∧
    ((runCartOps collWit []
        [.add prodWit "S", .add prodWit "M", .add prodWit "M"]).length : Int) ≤
      collWit.maxProducts := by
  constructor
  · have h := (cart_bound_spec collWit
      { cart := [{ productId := "p1", productName := "Tee", size := "S",
                   image := "" },
                 { productId := "p1", productName := "Tee", size := "M",
                   image := "" }],
        selectedProduct := some prodWit, selectedSize := "M",
        view := .productDetail }).1 (by right; right; decide)
    rw [h.1]
    rfl
  · exact (cart_bound_spec collWit sessInfWit).2.2 (by decide)
      [.add prodWit "S", .add prodWit "M", .add prodWit "M"]

/-! ## Influencer submission (`handleSubmit`, src/App.tsx lines 956–981,
and `onSubmission`, lines 278–284) -/

/-- The contact form state of the influencer page. -/
structure FormData where
  instagramId : String
  name : String
  phone : String
  address : String
  message : String
  extra : String
  agreed : Bool
deriving DecidableEq, Repr

/-- Model of `cart.map(item => ({id: generateId(), ...}))`: one shipping
entry per cart item, where the k-th call of the id generator (counting
from `k0`) returns `gen (k0 + k)`. -/
def mkEntries (form : FormData) (today : String) (gen : Nat → String) :
    Nat → List CartItem → List ShippingEntry
  | _, [] => []
  | k, item :: rest =>
      { id := gen k, status := .preparing, submitDate := today,
        instagramId := form.instagramId, name := form.name,
        phone := form.phone, address := form.address,
        message := form.message, extra := form.extra,
        productName := item.productName, size := item.size,
        quantity := 1, adminMemo := "" } :: mkEntries form today gen (k + 1) rest

/-- Model of `handleSubmit` combined with the `onSubmission` callback:
reject (blocking alert, nothing changes) unless every required contact
field is non-empty and consent is given; otherwise append one entry per
cart item to the collection, clear the cart and move to the success
view. -/
def handleSubmit (form : FormData) (today : String) (gen : Nat → String)
    (coll : Collection) (sess : InfSession) :
    Collection × InfSession × Option String :=
  if form.instagramId = "" ∨ form.name = "" ∨ form.phone = "" ∨
      form.address = "" ∨ form.agreed = false then
    (coll, sess, some "Please complete all required fields and accept the terms.")
  else
    let newEntries := mkEntries form today gen 0 sess.cart
    ({ coll with shippingEntries := coll.shippingEntries ++ newEntries },
     { sess with cart := [], view := .success }, none)

/-- Helper: length of the produced entry list. -/
theorem mkEntries_length (form : FormData) (today : String)
    (gen : Nat → String) (k : Nat) (cart : List CartItem) :
    (mkEntries form today gen k cart).length = cart.length := by
  induction cart generalizing k with
  | nil => rfl
  | cons item rest ih => simp [mkEntries, ih]

/-- Helper: the i-th produced entry, elementwise. -/
theorem mkEntries_get? (form : FormData) (today : String) (gen : Nat → String)
    (k : Nat) (cart : List CartItem) (i : Nat) (h : i < cart.length) :
    (mkEntries form today gen k cart)[i]? =
      some ({ id := gen (k + i), status := .preparing, submitDate := today,
              instagramId := form.instagramId, name := form.name,
              phone := form.phone, address := form.address,
              message := form.message, extra := form.extra,
              productName := (cart.get ⟨i, h⟩).productName,
              size := (cart.get ⟨i, h⟩).size, quantity := 1,
              adminMemo := "" } : ShippingEntry) := by
  induction cart generalizing k i with
  | nil => cases h
  | cons item rest ih =>
      cases i with
      | zero => simp [mkEntries]
      | succ j =>
          have hj : j < rest.length := Nat.lt_of_succ_lt_succ h
          have := ih (k + 1) j hj
          simp only [mkEntries, List.getElem?_cons_succ]
          rw [this]
          have hkj : k + 1 + j = k + (j + 1) := by omega
          simp [hkj]

/-- C3.  Influencer submission: with a missing required field or without
consent, nothing changes and a blocking alert is raised; with all fields
present, exactly one entry per cart item is appended in cart order, each
entry carrying status PREPARING, the current date, quantity 1, an empty
admin memo, the form's contact fields and the cart item's product name
and size; the cart is cleared and the session reaches the terminal
success view. -/
theorem submission_spec (form : FormData) (today : String)
    (gen : Nat → String) (coll : Collection) (sess : InfSession) :
    (form.instagramId = "" ∨ form.name = "" ∨ form.phone = "" ∨
        form.address = "" ∨ form.agreed = false →
      (handleSubmit form today gen coll sess).1 = coll ∧
      (handleSubmit form today gen coll sess).2.1 = sess ∧
      (handleSubmit form today gen coll sess).2.2.isSome) ∧
    (form.instagramId ≠ "" → form.name ≠ "" → form.phone ≠ "" →
        form.address ≠ "" → form.agreed = true →
      ∃ newEntries : List ShippingEntry,
        (handleSubmit form today gen coll sess).1.shippingEntries =
            coll.shippingEntries ++ newEntries ∧
        newEntries.length = sess.cart.length ∧
        (∀ i : Nat, ∀ h : i < sess.cart.length,
          newEntries[i]? =
            some ({ id := gen i, status := .preparing, submitDate := today,
                    instagramId := form.instagramId, name := form.name,
                    phone := form.phone, address := form.address,
                    message := form.message, extra := form.extra,
                    productName := (sess.cart.get ⟨i, h⟩).productName,
                    size := (sess.cart.get ⟨i, h⟩).size,
                    quantity := 1, adminMemo := "" } : ShippingEntry)) ∧
        (handleSubmit form today gen coll sess).2.1.cart = [] ∧
        (handleSubmit form today gen coll sess).2.1.view = .success ∧
        (handleSubmit form today gen coll sess).2.2 = none) := by
  constructor
  · intro hrej
    have hcond : form.instagramId = "" ∨ form.name = "" ∨ form.phone = "" ∨
        form.address = "" ∨ form.agreed = false := hrej
    simp [handleSubmit, hcond]
  · intro h1 h2 h3 h4 h5
    have hcond : ¬(form.instagramId = "" ∨ form.name = "" ∨ form.phone = "" ∨
        form.address = "" ∨ form.agreed = false) := by
      simp [h1, h2, h3, h4, h5]
    refine ⟨mkEntries form today gen 0 sess.cart, ?_, mkEntries_length _ _ _ _ _,
      ?_, ?_, ?_, ?_⟩
    · simp [handleSubmit, hcond]
    · intro i h
      have := mkEntries_get? form today gen 0 sess.cart i h
      simpa using this
    · simp [handleSubmit, hcond]
    · simp [handleSubmit, hcond]
    · simp [handleSubmit, hcond]

/-- Concrete form used by witnesses. -/
def formWit : FormData :=
  { instagramId := "abc", name := "김민지", phone := "010-1234-5678",
    address := "Seoul", message := "fast please", extra := "", agreed := true }

/-- Witness for C3 at concrete inputs, following the end-to-end scenario
of the spec: a one-item cart at size "M" submits into exactly one
PREPARING entry carrying the product name and size, the cart ends empty,
and a submission without consent changes nothing. -/
theorem submission_spec_witness :
    (∃ newEntries : List ShippingEntry,
      (handleSubmit formWit "2026-10-11" (fun k => toString k) collWit
          { cart := [{ productId := "p1", productName := "Tee", size := "M",
                       image := "" }],
            selectedProduct := none, selectedSize := "",
            view := .cartView }).1.shippingEntries =
        collWit.shippingEntries ++ newEntries ∧
      newEntries.length = 1) ∧
    (handleSubmit { formWit with agreed := false } "2026-10-11"
        (fun k => toString k) collWit sessInfWit).1 = collWit := by
  constructor
  · obtain ⟨es, h1, h2, -⟩ := (submission_spec formWit "2026-10-11"
      (fun k => toString k) collWit
      { cart := [{ productId := "p1", productName := "Tee", size := "M",
                   image := "" }],
        selectedProduct := none, selectedSize := "", view := .cartView }).2
      (by decide) (by decide) (by decide) (by decide) rfl
    exact ⟨es, h1, h2⟩
  · exact ((submission_spec { formWit with agreed := false } "2026-10-11"
      (fun k => toString k) collWit sessInfWit).1
      (by right; right; right; right; rfl)).1

/-! ## Duplicate shipping entry (src/App.tsx lines 782–792) -/

/-- The extra-item sentinel written into `submitDate` of a duplicate. -/
def extraSentinel : String := "추가 제품"

/-- Model of the duplicate button: copy the entry, give it a fresh id,
the extra-item sentinel as its date, and blank product name and size. -/
def duplicateEntry (freshId : String) (e : ShippingEntry) : ShippingEntry :=
  { e with id := freshId, submitDate := extraSentinel,
           productName := "", size := "" }

/-- Model of the surrounding update: the copy is appended to the
collection's entries. -/
def duplicateShippingEntry (freshId : String) (coll : Collection)
    (e : ShippingEntry) : Collection :=
  { coll with shippingEntries :=
      coll.shippingEntries ++ [duplicateEntry freshId e] }

/-- C4.  Duplicate shipping entry: duplicating an entry of the collection
with a fresh id appends exactly one new entry — fresh id different from
the source id, sentinel date, blank product name and size, every other
field copied from the source — and leaves all pre-existing entries
unchanged. -/
theorem duplicate_entry_spec (freshId : String) (coll : Collection)
    (e : ShippingEntry) (_hmem : e ∈ coll.shippingEntries)
    (hfresh : freshId ≠ e.id) :
    (duplicateShippingEntry freshId coll e).shippingEntries =
        coll.shippingEntries ++ [duplicateEntry freshId e] ∧
    (duplicateEntry freshId e).id = freshId ∧
    (duplicateEntry freshId e).id ≠ e.id ∧
    (duplicateEntry freshId e).submitDate = extraSentinel ∧
    (duplicateEntry freshId e).productName = "" ∧
    (duplicateEntry freshId e).size = "" ∧
    (duplicateEntry freshId e).status = e.status ∧
    (duplicateEntry freshId e).instagramId = e.instagramId ∧
    (duplicateEntry freshId e).name = e.name ∧
    (duplicateEntry freshId e).phone = e.phone ∧
    (duplicateEntry freshId e).address = e.address ∧
    (duplicateEntry freshId e).message = e.message ∧
    (duplicateEntry freshId e).extra = e.extra ∧
    (duplicateEntry freshId e).quantity = e.quantity ∧
    (duplicateEntry freshId e).adminMemo = e.adminMemo ∧
    (duplicateShippingEntry freshId coll e).shippingEntries.take
        coll.shippingEntries.length = coll.shippingEntries := by
  refine ⟨rfl, rfl, hfresh, rfl, rfl, rfl, rfl, rfl, rfl, rfl, rfl, rfl, rfl,
    rfl, rfl, ?_⟩
  simp [duplicateShippingEntry]

/-- Concrete shipping entry used by witnesses. -/
def entryWit : ShippingEntry :=
  { id := "e1", status := .preparing, submitDate := "2026-10-11",
    instagramId := "abc", name := "김민지", phone := "010-1234-5678",
    address := "Seoul", message := "fast please", extra := "",
    productName := "Tee", size := "M", quantity := 2, adminMemo := "memo" }

/-- Concrete collection holding `entryWit`, used by witnesses. -/
def collWithEntry : Collection :=
  { collWit with shippingEntries := [entryWit] }

/-- Witness for C4 at concrete inputs. -/
theorem duplicate_entry_spec_witness :
    (duplicateShippingEntry "fresh9" collWithEntry entryWit).shippingEntries =
        [entryWit, duplicateEntry "fresh9" entryWit] ∧
    (duplicateEntry "fresh9" entryWit).submitDate = extraSentinel ∧
    (duplicateEntry "fresh9" entryWit).productName = "" ∧
    (duplicateEntry "fresh9" entryWit).quantity = entryWit.quantity := by
  obtain ⟨h1, -, -, h4, h5, -, -, -, -, -, -, -, -, h14, -, -⟩ :=
    duplicate_entry_spec "fresh9" collWithEntry entryWit
      (by simp [collWithEntry]) (by decide)
  exact ⟨h1, h4, h5, h14⟩

/-! ## Storage usage estimator (`getStorageUsage`, src/utils.ts)

The localStorage substrate is modelled as an association list of keys to
values.  `(total / (1024*1024)).toFixed(2)` is computed exactly: `total`
is an integer, division by `2^20` is exact in binary floating point for
any realistic total, and `toFixed` rounds to the nearest hundredth with
ties away from zero — for nonnegative values, `⌊x·100 + 1/2⌋`. -/

/-- Model of the loop `total += (localStorage[x].length + x.length) * 2`. -/
def storageTotalBytes (store : List (String × String)) : Nat :=
  store.foldl (fun total kv => total + (kv.2.length + kv.1.length) * 2) 0

/-- The usage estimate in hundredths of a MB:
`round (total / 1048576 * 100)` with ties rounded up. -/
def usageHundredths (store : List (String × String)) : Nat :=
  (100 * storageTotalBytes store + 524288) / 1048576

/-- Rendering of a hundredths count as a two-decimal string, as
`toFixed(2)` renders it. -/
def toFixed2 (h : Nat) : String :=
  toString (h / 100) ++ "." ++
    (if h % 100 < 10 then "0" ++ toString (h % 100) else toString (h % 100))

/-- Model of `getStorageUsage`: the two-decimal string. -/
def getStorageUsage (store : List (String × String)) : String :=
  toFixed2 (usageHundredths store)

/-- The configured storage maximum, `MAX_STORAGE_MB = 5`. -/
def MAX_STORAGE_MB : Nat := 5

/-- Helper: the accumulating loop equals the sum over the keys. -/
theorem storageTotalBytes_eq_sum (store : List (String × String)) :
    storageTotalBytes store =
      (store.map (fun kv => 2 * (kv.1.length + kv.2.length))).sum := by
  have aux : ∀ (l : List (String × String)) (a : Nat),
      l.foldl (fun total kv => total + (kv.2.length + kv.1.length) * 2) a =
        a + (l.map (fun kv => 2 * (kv.1.length + kv.2.length))).sum := by
    intro l
    induction l with
    | nil => intro a; simp
    | cons kv rest ih =>
        intro a
        simp only [List.foldl_cons, List.map_cons, List.sum_cons, ih]
        ring
  simpa using aux store 0

/-- C9.  Storage usage estimate: the estimate is the sum of
`2 * (key.length + value.length)` over every key in the substrate,
divided by 1,048,576 and rounded to two decimal places; on a substrate
holding exactly the key "k" with value "v" it renders as "0.00". -/
theorem storage_usage_spec (store : List (String × String)) :
    usageHundredths store =
      (100 * (store.map (fun kv => 2 * (kv.1.length + kv.2.length))).sum
        + 524288) / 1048576 ∧
    getStorageUsage [("k", "v")] = "0.00" := by
  constructor
  · rw [usageHundredths, storageTotalBytes_eq_sum]
  · decide

/-! ## maxProducts coercion (src/App.tsx lines 461–468)

The selection-limit input stores `parseInt(e.target.value) || 1`. -/

/-- Digit run value: the leading decimal digits of a character list, or
`none` when there is no leading digit (`parseInt` yields NaN then). -/
def digitsVal (cs : List Char) : Option Nat :=
  let ds := cs.takeWhile Char.isDigit
  if ds = [] then none
  else some (ds.foldl (fun n c => 10 * n + (c.toNat - 48)) 0)

/-- Model of `parseInt(s)` in base 10: skip leading whitespace, accept an
optional sign, read the leading digit run; `none` is NaN. -/
def parseIntJS (s : String) : Option Int :=
  match s.data.dropWhile isWs with
  | '-' :: rest => (digitsVal rest).map (fun n => -(n : Int))
  | '+' :: rest => (digitsVal rest).map (fun n => (n : Int))
  | cs => (digitsVal cs).map (fun n => (n : Int))

/-- Model of `parseInt(v) || 1`: NaN and 0 are falsy and give 1. -/
def coerceMaxProducts (input : String) : Int :=
  match parseIntJS input with
  | none => 1
  | some n => if n = 0 then 1 else n

/-- Model of `handleUpdate({ maxProducts: parseInt(v) || 1 })`. -/
def updateMaxProducts (c : Collection) (input : String) : Collection :=
  { c with maxProducts := coerceMaxProducts input }

/-- C6 counterexample: the input "-5" coerces to the integer -5, which is
stored as-is — the stored result is not a positive integer, contrary to
the claim. -/
theorem maxProducts_negative_counterexample :
    (updateMaxProducts collWit "-5").maxProducts = -5 ∧
    ¬ 0 < (updateMaxProducts collWit "-5").maxProducts := by
  constructor
  · decide
  · decide

/-- C6 (amended).  maxProducts coercion: the stored result is the input
coerced to an integer, with 1 substituted whenever coercion fails or
yields 0; the result is positive whenever the coerced value is
nonnegative or coercion fails, but a negative coerced value is stored
unchanged. -/
theorem maxProducts_coercion_spec (c : Collection) (input : String) :
    (parseIntJS input = none → (updateMaxProducts c input).maxProducts = 1) ∧
    (parseIntJS input = some 0 → (updateMaxProducts c input).maxProducts = 1) ∧
    (∀ n : Int, parseIntJS input = some n → n ≠ 0 →
      (updateMaxProducts c input).maxProducts = n) ∧
    (∀ n : Int, parseIntJS input = some n → 0 ≤ n →
      0 < (updateMaxProducts c input).maxProducts) := by
  refine ⟨?_, ?_, ?_, ?_⟩
  · intro h; simp [updateMaxProducts, coerceMaxProducts, h]
  · intro h; simp [updateMaxProducts, coerceMaxProducts, h]
  · intro n h hn; simp [updateMaxProducts, coerceMaxProducts, h, hn]
  · intro n h hn
    by_cases h0 : n = 0
    · simp [updateMaxProducts, coerceMaxProducts, h, h0]
    · simp only [updateMaxProducts, coerceMaxProducts, h, if_neg h0]
      omega

/-- Witness for C6 (amended) at concrete inputs: "3" stores 3, "0" and
"abc" store 1, and both stored values are positive. -/
theorem maxProducts_coercion_spec_witness :
    (updateMaxProducts collWit "3").maxProducts = 3 ∧
    (updateMaxProducts collWit "0").maxProducts = 1 ∧
    (updateMaxProducts collWit "abc").maxProducts = 1 ∧
    0 < (updateMaxProducts collWit "3").maxProducts := by
  refine ⟨?_, ?_, ?_, ?_⟩
  · exact (maxProducts_coercion_spec collWit "3").2.2.1 3 (by decide) (by decide)
  · exact (maxProducts_coercion_spec collWit "0").2.1 (by decide)
  · exact (maxProducts_coercion_spec collWit "abc").1 (by decide)
  · exact (maxProducts_coercion_spec collWit "3").2.2.2 3 (by decide) (by decide)

/-! ## createCollection (src/App.tsx lines 133–166) -/

/-- Model of `s.substring(0, n)`: the first `n` characters (all of them
when the string is shorter). -/
def jsSubstringTo (s : String) (n : Nat) : String :=
  String.mk (s.data.take n)

/-- A user-facing notification raised through `notify`. -/
inductive Notice where
  | error (msg : String)
  | success (msg : String)
deriving DecidableEq, Repr

/-- Model of `createCollection`.  The storage gate
`parseFloat(getStorageUsage()) >= MAX_STORAGE_MB * 0.95` compares the
two-decimal estimate against 4.75 MB, i.e. the hundredths count against
`95 * MAX_STORAGE_MB = 475`.  The id generator's two calls are the
`freshId` and `freshCode` parameters; the access code is
`generateId().substring(0, 6)`. -/
def createCollection (store : List (String × String))
    (freshId freshCode : String) (newCollectionName : String)
    (st : AppState) : AppState × Option Notice :=
  let name := jsTrim newCollectionName
  if name = "" then (st, none)
  else if 95 * MAX_STORAGE_MB ≤ usageHundredths store then
    (st, some (.error "Storage nearly full. Delete old collections first."))
  else
    let newColl : Collection :=
      { id := freshId, name := name, accessCode := jsSubstringTo freshCode 6,
        maxProducts := 2, lookbookImages := [],
        descriptionTitle := "Collection Story",
        descriptionBody := "Share the inspiration behind this season.",
        products := [], shippingEntries := [] }
    ({ st with collections := st.collections ++ [newColl] },
     some (.success ("Collection \"" ++ name ++ "\" created")))

/-- C7 counterexample: creating with a name that is empty after trimming
is a silent no-op — no user-facing warning is reported (`if (!name)
return;`), contrary to the claim that both rejection cases warn. -/
theorem createCollection_silent_counterexample :
    createCollection [] "id1" "abc123xyz" " " stWit = (stWit, none) := by
  decide

/-- C7 (amended).  createCollection: an empty-after-trim name is rejected
as a silent no-op (no warning); a usage estimate at or above 95% of the
configured maximum is rejected as a no-op with a user-facing warning;
otherwise exactly one collection is appended, carrying the fresh id, the
first six characters of the freshly generated code (six characters long
whenever the generator supplies at least six), `maxProducts = 2` and
empty products, shipping entries and lookbook images. -/
theorem createCollection_spec (store : List (String × String))
    (freshId freshCode : String) (nm : String) (st : AppState) :
    (jsTrim nm = "" →
      createCollection store freshId freshCode nm st = (st, none)) ∧
    (jsTrim nm ≠ "" → 95 * MAX_STORAGE_MB ≤ usageHundredths store →
      (createCollection store freshId freshCode nm st).1 = st ∧
      (createCollection store freshId freshCode nm st).2 =
        some (.error "Storage nearly full. Delete old collections first.")) ∧
    (jsTrim nm ≠ "" → usageHundredths store < 95 * MAX_STORAGE_MB →
      (createCollection store freshId freshCode nm st).1.collections =
        st.collections ++
          [{ id := freshId, name := jsTrim nm, accessCode := jsSubstringTo freshCode 6,
             maxProducts := 2, lookbookImages := [],
             descriptionTitle := "Collection Story",
             descriptionBody := "Share the inspiration behind this season.",
             products := [], shippingEntries := [] }] ∧
      (6 ≤ freshCode.length → (jsSubstringTo freshCode 6).length = 6) ∧
      (createCollection store freshId freshCode nm st).2 =
        some (.success ("Collection \"" ++ jsTrim nm ++ "\" created"))) := by
  refine ⟨?_, ?_, ?_⟩
  · intro h
    simp [createCollection, h]
  · intro h hfull
    constructor
    · simp [createCollection, h, hfull]
    · simp [createCollection, h, hfull]
  · intro h hfree
    have hlt : ¬ 95 * MAX_STORAGE_MB ≤ usageHundredths store :=
      not_le.mpr hfree
    refine ⟨?_, ?_, ?_⟩
    · simp [createCollection, h, hlt]
    · intro hlen
      have hdata : 6 ≤ freshCode.data.length := hlen
      simp only [jsSubstringTo, String.length, List.length_take]
      omega
    · simp [createCollection, h, hlt]

/-- Witness for C7 (amended) at concrete inputs: a nonempty name on an
empty substrate creates the collection and reports success. -/
theorem createCollection_spec_witness :
    (createCollection [] "id1" "abc123xyz" " Fall " stWit).1.collections =
      stWit.collections ++
        [{ id := "id1", name := "Fall", accessCode := "abc123",
           maxProducts := 2, lookbookImages := [],
           descriptionTitle := "Collection Story",
           descriptionBody := "Share the inspiration behind this season.",
           products := [], shippingEntries := [] }] ∧
    (createCollection [] "id1" "abc123xyz" " Fall " stWit).2 =
      some (.success "Collection \"Fall\" created") := by
  obtain ⟨h1, -, h3⟩ :=
    (createCollection_spec [] "id1" "abc123xyz" " Fall " stWit).2.2
      (by decide) (by decide)
  exact ⟨h1, h3⟩

/-! ## Persisted document store (`App` initial state, src/App.tsx lines
59–67)

`load` is `localStorage.getItem` followed by `JSON.parse` inside a
`try`/`catch` that falls back to the default document.  JSON values are
modelled by an inductive tree and `JSON.parse` by a fuel-indexed
recursive-descent parser over the JSON grammar: every standard string
escape including `\uXXXX` and surrogate pairs (a lone surrogate escape,
whose value a Lean `String` cannot hold, is the one unparsed fragment),
rejection of raw control characters inside strings, and full numerals
with optional fraction and exponent, valued as the exact decimal
rationals they denote (the final rounding to a binary double is not
modelled, and an object keeps its fields in source order). -/

/-- A JSON value. -/
inductive Json where
  | null
  | bool (b : Bool)
  | num (q : ℚ)
  | str (s : String)
  | arr (elems : List Json)
  | obj (fields : List (String × Json))

/-- JSON insignificant whitespace. -/
def isWsJson (c : Char) : Bool :=
  c = ' ' || c = '\t' || c = '\n' || c = '\r'

/-- Skip insignificant whitespace. -/
def skipWsJson (cs : List Char) : List Char := cs.dropWhile isWsJson

/-- Value of one hexadecimal digit. -/
def hexVal (c : Char) : Option Nat :=
  if 48 ≤ c.toNat ∧ c.toNat ≤ 57 then some (c.toNat - 48)
  else if 97 ≤ c.toNat ∧ c.toNat ≤ 102 then some (c.toNat - 87)
  else if 65 ≤ c.toNat ∧ c.toNat ≤ 70 then some (c.toNat - 55)
  else none

/-- Parse the body of a JSON string after the opening quote, as
`JSON.parse` lexes it: the escapes `\" \\ \/ \b \f \n \r \t`, a `\uXXXX`
escape for a non-surrogate code unit, a high-surrogate escape completed
by a low-surrogate escape (one supplementary code point), any raw
character from `0x20` up, and an error on a raw control character, an
unknown escape, or an unterminated string.  A lone surrogate escape,
legal for `JSON.parse` but with no `Char` counterpart, is not parsed. -/
def pStrAux : List Char → List Char → Option (List Char × List Char)
  | [], _ => none
  | '"' :: rest, acc => some (acc.reverse, rest)
  | '\\' :: 'u' :: h1 :: h2 :: h3 :: h4 :: rest, acc =>
      (match hexVal h1, hexVal h2, hexVal h3, hexVal h4 with
      | some a, some b, some c, some d =>
          let n := ((a * 16 + b) * 16 + c) * 16 + d
          if n < 0xD800 ∨ 0xDFFF < n then
            pStrAux rest (Char.ofNat n :: acc)
          else if n ≤ 0xDBFF then
            match rest with
            | '\\' :: 'u' :: g1 :: g2 :: g3 :: g4 :: rest2 =>
                (match hexVal g1, hexVal g2, hexVal g3, hexVal g4 with
                | some a2, some b2, some c2, some d2 =>
                    let m := ((a2 * 16 + b2) * 16 + c2) * 16 + d2
                    if 0xDC00 ≤ m ∧ m ≤ 0xDFFF then
                      pStrAux rest2
                        (Char.ofNat
                          (0x10000 + (n - 0xD800) * 0x400 + (m - 0xDC00))
                          :: acc)
                    else none
                | _, _, _, _ => none)
            | _ => none
          else none
      | _, _, _, _ => none)
  | '\\' :: e :: rest, acc =>
      if e = '"' then pStrAux rest ('"' :: acc)
      else if e = '\\' then pStrAux rest ('\\' :: acc)
      else if e = '/' then pStrAux rest ('/' :: acc)
      else if e = 'b' then pStrAux rest ('\x08' :: acc)
      else if e = 'f' then pStrAux rest ('\x0c' :: acc)
      else if e = 'n' then pStrAux rest ('\n' :: acc)
      else if e = 'r' then pStrAux rest ('\r' :: acc)
      else if e = 't' then pStrAux rest ('\t' :: acc)
      else none
  | ['\\'], _ => none
  | c :: rest, acc =>
      if c.toNat < 0x20 then none else pStrAux rest (c :: acc)

/-- Digit-run value of a list of decimal digits. -/
def digitsToNat (ds : List Char) : Nat :=
  ds.foldl (fun n c => 10 * n + (c.toNat - 48)) 0

/-- Parse a JSON numeral `-? int frac? exp?` — no leading zero on a
multi-digit integer part, at least one digit after the decimal point and
in the exponent — yielding the exact decimal rational it denotes. -/
def pNum (cs : List Char) : Option (Json × List Char) :=
  let (neg, cs1) :=
    match cs with
    | '-' :: rest => (true, rest)
    | _ => (false, cs)
  let intDs := cs1.takeWhile Char.isDigit
  if intDs = [] then none
  else if 1 < intDs.length ∧ intDs.headD '0' = '0' then none
  else
    let cs2 := cs1.drop intDs.length
    let (fracOk, fracDs, cs3) :=
      match cs2 with
      | '.' :: rest =>
          let fs := rest.takeWhile Char.isDigit
          (!fs.isEmpty, fs, rest.drop fs.length)
      | _ => (true, ([] : List Char), cs2)
    if fracOk = false then none
    else
      let (expOk, expNeg, expDs, cs4) :=
        match cs3 with
        | 'e' :: rest | 'E' :: rest =>
            (match rest with
            | '+' :: r2 =>
                let ds := r2.takeWhile Char.isDigit
                (!ds.isEmpty, false, ds, r2.drop ds.length)
            | '-' :: r2 =>
                let ds := r2.takeWhile Char.isDigit
                (!ds.isEmpty, true, ds, r2.drop ds.length)
            | r2 =>
                let ds := r2.takeWhile Char.isDigit
                (!ds.isEmpty, false, ds, r2.drop ds.length))
        | _ => (true, false, ([] : List Char), cs3)
      if expOk = false then none
      else
        let mantissa : Nat := digitsToNat (intDs ++ fracDs)
        let e10 : Int :=
          (if expNeg then -(digitsToNat expDs : Int)
           else (digitsToNat expDs : Int)) - fracDs.length
        let mag : ℚ :=
          if 0 ≤ e10 then (mantissa : ℚ) * (10 : ℚ) ^ e10.toNat
          else (mantissa : ℚ) / (10 : ℚ) ^ (-e10).toNat
        some (.num (if neg then -mag else mag), cs4)

mutual

/-- Parse one JSON value. -/
def pJson : Nat → List Char → Option (Json × List Char)
  | 0, _ => none
  | fuel + 1, cs =>
      match skipWsJson cs with
      | 'n' :: 'u' :: 'l' :: 'l' :: rest => some (.null, rest)
      | 't' :: 'r' :: 'u' :: 'e' :: rest => some (.bool true, rest)
      | 'f' :: 'a' :: 'l' :: 's' :: 'e' :: rest => some (.bool false, rest)
      | '"' :: rest =>
          (pStrAux rest []).map (fun p => (.str (String.mk p.1), p.2))
      | '[' :: rest =>
          (match skipWsJson rest with
          | ']' :: r => some (.arr [], r)
          | cs2 =>
              (pElems fuel cs2).map (fun p => (.arr p.1, p.2)))
      | '\x7b' :: rest =>
          (match skipWsJson rest with
          | '\x7d' :: r => some (.obj [], r)
          | cs2 =>
              (pMembers fuel cs2).map (fun p => (.obj p.1, p.2)))
      | cs2 => pNum cs2

/-- Parse the comma-separated elements of a nonempty array, including the
closing bracket. -/
def pElems : Nat → List Char → Option (List Json × List Char)
  | 0, _ => none
  | fuel + 1, cs =>
      match pJson fuel cs with
      | none => none
      | some (v, rest) =>
          match skipWsJson rest with
          | ',' :: r => (pElems fuel r).map (fun p => (v :: p.1, p.2))
          | ']' :: r => some ([v], r)
          | _ => none

/-- Parse the comma-separated members of a nonempty object, including the
closing brace. -/
def pMembers : Nat → List Char → Option (List (String × Json) × List Char)
  | 0, _ => none
  | fuel + 1, cs =>
      match skipWsJson cs with
      | '"' :: rest =>
          match pStrAux rest [] with
          | none => none
          | some (key, rest2) =>
              match skipWsJson rest2 with
              | ':' :: r3 =>
                  match pJson fuel r3 with
                  | none => none
                  | some (v, r4) =>
                      match skipWsJson r4 with
                      | ',' :: r5 =>
                          (pMembers fuel r5).map
                            (fun p => ((String.mk key, v) :: p.1, p.2))
                      | '\x7d' :: r5 => some ([(String.mk key, v)], r5)
                      | _ => none
              | _ => none
      | _ => none

end

/-- Model of `JSON.parse`: parse one value and require only whitespace
after it; `none` models the thrown SyntaxError. -/
def jsonParse (s : String) : Option Json :=
  match pJson (2 * s.data.length + 2) s.data with
  | some (v, rest) => if skipWsJson rest = [] then some v else none
  | none => none

/-- The default document: empty collections, null active id, admin code
"admin". -/
def defaultStateJson : Json :=
  .obj [("collections", .arr []), ("activeCollectionId", .null),
        ("adminAccessCode", .str "admin")]

/-- Model of the `useState` initializer: return the parse of the stored
string when the key is present and parsing succeeds, the default
document otherwise.  No structural validation happens — whatever JSON
value parsed is returned as the state. -/
def load (stored : Option String) : Json :=
  match stored with
  | none => defaultStateJson
  | some s =>
      match jsonParse s with
      | some v => v
      | none => defaultStateJson

/-- Look up a field of a parsed JSON object. -/
def jGet (fields : List (String × Json)) (k : String) : Option Json :=
  (fields.find? (fun f => f.1 == k)).map (fun f => f.2)

/-- A JSON value that is a string. -/
def isStrJson : Json → Bool
  | .str _ => true
  | _ => false

/-- An object field holding a string. -/
def fieldIsStr (fs : List (String × Json)) (k : String) : Bool :=
  match jGet fs k with
  | some (.str _) => true
  | _ => false

/-- An object field holding an integer numeral. -/
def fieldIsNum (fs : List (String × Json)) (k : String) : Bool :=
  match jGet fs k with
  | some (.num _) => true
  | _ => false

/-- An object field holding an array of strings. -/
def fieldIsStrArr (fs : List (String × Json)) (k : String) : Bool :=
  match jGet fs k with
  | some (.arr xs) => xs.all isStrJson
  | _ => false

/-- Structural compatibility of a JSON value with the `Product` shape of
src/types.ts. -/
def isProductShaped : Json → Bool
  | .obj fs =>
      fieldIsStr fs "id" && fieldIsStr fs "name" && fieldIsStr fs "price" &&
      fieldIsStrArr fs "options" && fieldIsStr fs "description" &&
      fieldIsStrArr fs "images"
  | _ => false

/-- Structural compatibility with the `ShippingEntry` shape. -/
def isEntryShaped : Json → Bool
  | .obj fs =>
      fieldIsStr fs "id" && fieldIsStr fs "status" &&
      fieldIsStr fs "submitDate" && fieldIsStr fs "instagramId" &&
      fieldIsStr fs "name" && fieldIsStr fs "phone" &&
      fieldIsStr fs "address" && fieldIsStr fs "message" &&
      fieldIsStr fs "extra" && fieldIsStr fs "productName" &&
      fieldIsStr fs "size" && fieldIsNum fs "quantity" &&
      fieldIsStr fs "adminMemo"
  | _ => false

/-- Structural compatibility with the `Collection` shape. -/
def isCollectionShaped : Json → Bool
  | .obj fs =>
      fieldIsStr fs "id" && fieldIsStr fs "name" &&
      fieldIsStr fs "accessCode" && fieldIsNum fs "maxProducts" &&
      fieldIsStrArr fs "lookbookImages" && fieldIsStr fs "descriptionTitle" &&
      fieldIsStr fs "descriptionBody" &&
      (match jGet fs "products" with
        | some (.arr xs) => xs.all isProductShaped
        | _ => false) &&
      (match jGet fs "shippingEntries" with
        | some (.arr xs) => xs.all isEntryShaped
        | _ => false)
  | _ => false

/-- Structural compatibility with the `AppState` shape. -/
def isAppStateShaped : Json → Bool
  | .obj fs =>
      (match jGet fs "collections" with
        | some (.arr xs) => xs.all isCollectionShaped
        | _ => false) &&
      (match jGet fs "activeCollectionId" with
        | some .null => true
        | some (.str _) => true
        | _ => false) &&
      fieldIsStr fs "adminAccessCode"
  | _ => false

/-- C8 counterexample: the stored text `"oops"` (a quoted JSON string) is
valid JSON but structurally incompatible with `AppState`; `load` returns
it as the state instead of falling back to the default document. -/
theorem load_shape_counterexample :
    load (some "\"oops\"") = Json.str "oops" ∧
    isAppStateShaped (Json.str "oops") = false ∧
    load (some "\"oops\"") ≠ defaultStateJson := by
  refine ⟨rfl, rfl, ?_⟩
  intro h
  rw [show load (some "\"oops\"") = Json.str "oops" from rfl] at h
  exact Json.noConfusion h

/-- C8 (amended).  Load fallback: `load` returns the default document
(empty collections, null activeCollectionId, admin code "admin") when no
value is stored under the key or when the stored bytes fail to parse as
JSON; any stored value that parses as JSON — structurally compatible or
not — is returned as-is, with no validation. -/
theorem load_fallback_spec (s : String) :
    load none = defaultStateJson ∧
    (jsonParse s = none → load (some s) = defaultStateJson) ∧
    (∀ v : Json, jsonParse s = some v → load (some s) = v) := by
  refine ⟨rfl, ?_, ?_⟩
  · intro h
    simp [load, h]
  · intro v h
    simp [load, h]

/-- Witness for C8 (amended) at concrete inputs: an unterminated object
literal falls back to the default document, a round JSON document is
returned as parsed, and a stored document whose string value carries an
escaped newline — as `JSON.stringify` writes multiline user text — is
restored, not replaced by the default. -/
theorem load_fallback_spec_witness :
    load (some "\x7b bad") = defaultStateJson ∧
    load (some "true") = Json.bool true ∧
    load (some "\x7b\"a\":\"x\\ny\"\x7d") =
      Json.obj [("a", Json.str "x\ny")] := by
  refine ⟨?_, ?_, ?_⟩
  · exact (load_fallback_spec "\x7b bad").2.1 rfl
  · exact (load_fallback_spec "true").2.2 (Json.bool true) rfl
  · exact (load_fallback_spec "\x7b\"a\":\"x\\ny\"\x7d").2.2
      (Json.obj [("a", Json.str "x\ny")]) rfl

/-! ## CSV export (`downloadCSV`, src/utils.ts lines 56–100)

The exporter receives loosely-typed rows (`data: any[]`), so field values
are modelled as JS values that may be strings, numbers, `null` or
`undefined`.  The byte output is modelled as the character list of the
blob contents, `"﻿" + csvString`. -/

/-- A loosely-typed JS field value as the exporter sees it. -/
inductive JsVal where
  | vstr (s : String)
  | vnum (n : Int)
  | vnull
  | vundef
deriving DecidableEq, Repr

/-- JS falsiness of a field value (`NaN` is not modelled). -/
def jsFalsy : JsVal → Bool
  | .vstr s => s == ""
  | .vnum n => n == 0
  | .vnull => true
  | .vundef => true

/-- JS `String(v)` conversion. -/
def jsValToString : JsVal → String
  | .vstr s => s
  | .vnum n => toString n
  | .vnull => "null"
  | .vundef => "undefined"

/-- Model of `v || w`. -/
def jsOr (a b : JsVal) : JsVal := if jsFalsy a then b else a

/-- Model of `String(val).replace(/"/g, s)` with `s` two quote marks:
every double quote is doubled, character by character. -/
def escRep : List Char → List Char
  | [] => []
  | c :: cs => (if c = '"' then ['"', '"'] else [c]) ++ escRep cs

/-- Wrap an already-escaped field body in double quotes. -/
def quoteField (s : List Char) : List Char := '"' :: (escRep s ++ ['"'])

/-- The string rendered for a field value: `String(val || "")`. -/
def fieldString (val : JsVal) : List Char :=
  (jsValToString (if jsFalsy val then .vstr "" else val)).data

/-- Model of the `escape` closure of `downloadCSV`. -/
def escapeJS (val : JsVal) : List Char := quoteField (fieldString val)

/-- One row of the exported data as the exporter reads it. -/
structure CsvItem where
  instagramId : JsVal
  name : JsVal
  phone : JsVal
  address : JsVal
  productName : JsVal
  size : JsVal
  quantity : JsVal
  message : JsVal
deriving DecidableEq, Repr

/-- How a `ShippingEntry` is seen by the exporter. -/
def toCsvItem (e : ShippingEntry) : CsvItem :=
  { instagramId := .vstr e.instagramId, name := .vstr e.name,
    phone := .vstr e.phone, address := .vstr e.address,
    productName := .vstr e.productName, size := .vstr e.size,
    quantity := .vnum e.quantity, message := .vstr e.message }

/-- The ten fields of one rendered row, in column order; columns four and
five are emitted empty, and the quantity column is `item.quantity || 1`. -/
def rowFields (item : CsvItem) : List (List Char) :=
  [escapeJS item.instagramId, escapeJS item.name, escapeJS item.phone,
   escapeJS (.vstr ""), escapeJS (.vstr ""), escapeJS item.address,
   escapeJS item.productName, escapeJS item.size,
   escapeJS (jsOr item.quantity (.vnum 1)), escapeJS item.message]

/-- `Array.prototype.join` over character lists. -/
def joinWith (sep : Char) : List (List Char) → List Char
  | [] => []
  | f :: rest =>
      f ++ (if rest.isEmpty then [] else sep :: joinWith sep rest)

/-- The fixed ten-column header. -/
def customHeaders : List String :=
  ["instagram ID", "이름", "전화번호", "받는분기타연락처",
   "받는분우편번호", "주소", "제품명", "사이즈", "수량", "배송메세지1"]

/-- The header line, `customHeaders.join(',')`. -/
def headerLine : List Char := joinWith ',' (customHeaders.map String.data)

/-- Model of `downloadCSV`: nothing is emitted for an empty entry list;
otherwise the blob is the byte-order marker followed by the header line
and one rendered line per row, joined with newlines. -/
def downloadCSV (data : List CsvItem) : Option (List Char) :=
  if data = [] then none
  else
    some ('\uFEFF' ::
      joinWith '\n'
        (headerLine :: data.map (fun item => joinWith ',' (rowFields item))))

/-! ### A standard CSV reader

Fields are separated by commas and records by newlines; a field starting
with a double quote runs to the matching quote with `""` denoting a
literal quote (newlines and commas inside quotes belong to the field),
and anything else runs to the next separator.  The reader is strict: a
quoted field must be followed by a separator or the end of input. -/

/-- How a field ended: at a comma, a newline, or the end of input. -/
inductive FEnd where
  | comma
  | nl
  | eof
deriving DecidableEq, Repr

/-- Consume a quoted field body up to its closing quote: a doubled quote
is a literal quote, a lone quote closes the field, and a field left open
at the end of input is an error. -/
def parseQ : List Char → List Char → Option (List Char × List Char)
  | [], _ => none
  | [c], acc => if c = '"' then some (acc, []) else none
  | c :: d :: rest, acc =>
      if c = '"' then
        if d = '"' then parseQ rest (acc ++ ['"'])
        else some (acc, d :: rest)
      else parseQ (d :: rest) (acc ++ [c])

/-- Consume an unquoted field up to a separator or the end. -/
def pRaw : List Char → List Char × FEnd × List Char
  | [] => ([], .eof, [])
  | c :: rest =>
      if c = ',' then ([], .comma, rest)
      else if c = '\n' then ([], .nl, rest)
      else
        let r := pRaw rest
        (c :: r.1, r.2.1, r.2.2)

/-- Consume one field together with the separator that ends it. -/
def pField : List Char → Option (List Char × FEnd × List Char)
  | [] => some (pRaw [])
  | c :: rest =>
      if c = '"' then
        match parseQ rest [] with
        | none => none
        | some (f, []) => some (f, .eof, [])
        | some (f, ',' :: r) => some (f, .comma, r)
        | some (f, '\n' :: r) => some (f, .nl, r)
        | some (_, _ :: _) => none
      else some (pRaw (c :: rest))

/-- Parse a nonempty document into its rows of fields. -/
def pDoc : Nat → List Char → Option (List (List (List Char)))
  | 0, _ => none
  | _ + 1, [] => none
  | fuel + 1, c :: cs =>
      match pField (c :: cs) with
      | none => none
      | some (f, .eof, _) => some [[f]]
      | some (f, .comma, rest) =>
          (match pDoc fuel rest with
          | some (row :: rows) => some ((f :: row) :: rows)
          | _ => none)
      | some (f, .nl, rest) =>
          (match pDoc fuel rest with
          | some rows => some ([f] :: rows)
          | none => none)

/-- A standard CSV read of a whole document. -/
def csvParse (cs : List Char) : Option (List (List (List Char))) :=
  pDoc (cs.length + 1) cs

/-! ### Round-trip lemmas -/

/-- One rendered data row, before quoting. -/
def rawStrings (item : CsvItem) : List (List Char) :=
  [fieldString item.instagramId, fieldString item.name,
   fieldString item.phone, fieldString (.vstr ""), fieldString (.vstr ""),
   fieldString item.address, fieldString item.productName,
   fieldString item.size, fieldString (jsOr item.quantity (.vnum 1)),
   fieldString item.message]

/-- A row of quoted fields, as `downloadCSV` renders one data row. -/
def renderQRow (fs : List (List Char)) : List Char :=
  joinWith ',' (fs.map quoteField)

/-- A block of quoted rows joined by newlines. -/
def renderQRows (rows : List (List (List Char))) : List Char :=
  joinWith '\n' (rows.map renderQRow)

/-- Helper: a non-quote character is accumulated. -/
theorem parseQ_cons_ne (c : Char) (xs acc : List Char) (hc : c ≠ '"') :
    parseQ (c :: xs) acc = parseQ xs (acc ++ [c]) := by
  cases xs with
  | nil => simp [parseQ, hc]
  | cons d rest => simp [parseQ, hc]

/-- Helper: a doubled quote is accumulated as one literal quote. -/
theorem parseQ_quote_quote (xs acc : List Char) :
    parseQ ('"' :: '"' :: xs) acc = parseQ xs (acc ++ ['"']) := by
  simp [parseQ]

/-- Helper: a lone quote at the end of input closes the field. -/
theorem parseQ_quote_close (acc : List Char) :
    parseQ ['"'] acc = some (acc, []) := by
  simp [parseQ]

/-- Helper: a quote followed by a non-quote closes the field. -/
theorem parseQ_quote_close_cons (d : Char) (rest acc : List Char)
    (hd : d ≠ '"') : parseQ ('"' :: d :: rest) acc = some (acc, d :: rest) := by
  simp [parseQ, hd]

/-- Helper: the quoted-field parser undoes quote doubling, provided the
character after the closing quote is not another quote. -/
theorem parseQ_escRep (s : List Char) (t : List Char) (acc : List Char)
    (ht : ∀ c cs, t = c :: cs → c ≠ '"') :
    parseQ (escRep s ++ '"' :: t) acc = some (acc ++ s, t) := by
  induction s generalizing acc with
  | nil =>
      cases t with
      | nil => simpa [escRep] using parseQ_quote_close acc
      | cons c cs =>
          simpa [escRep] using parseQ_quote_close_cons c cs acc (ht c cs rfl)
  | cons c s' ih =>
      by_cases hc : c = '"'
      · subst hc
        have hesc : escRep ('"' :: s') = '"' :: '"' :: escRep s' := by
          simp [escRep]
        rw [hesc, List.cons_append, List.cons_append, parseQ_quote_quote,
          ih (acc ++ ['"'])]
        simp
      · have hesc : escRep (c :: s') = c :: escRep s' := by
          simp [escRep, hc]
        rw [hesc, List.cons_append, parseQ_cons_ne c _ acc hc,
          ih (acc ++ [c])]
        simp

/-- Helper: a quoted field at the end of the input. -/
theorem pField_quoted_eof (s : List Char) :
    pField ('"' :: (escRep s ++ ['"'])) = some (s, .eof, []) := by
  have h := parseQ_escRep s [] [] (by intro c cs h; cases h)
  simp only [List.nil_append] at h
  simp only [pField, if_pos rfl]
  rw [show escRep s ++ ['"'] = escRep s ++ '"' :: [] from rfl, h]
  simp

/-- Helper: a quoted field followed by a comma. -/
theorem pField_quoted_comma (s t : List Char) :
    pField ('"' :: (escRep s ++ '"' :: ',' :: t)) = some (s, .comma, t) := by
  have h := parseQ_escRep s (',' :: t) []
    (by intro c cs hh; cases hh; decide)
  simp only [List.nil_append] at h
  simp only [pField, if_pos rfl]
  rw [h]
  simp

/-- Helper: a quoted field followed by a newline. -/
theorem pField_quoted_nl (s t : List Char) :
    pField ('"' :: (escRep s ++ '"' :: '\n' :: t)) = some (s, .nl, t) := by
  have h := parseQ_escRep s ('\n' :: t) []
    (by intro c cs hh; cases hh; decide)
  simp only [List.nil_append] at h
  simp only [pField, if_pos rfl]
  rw [h]
  simp

/-- Helper: un_folding of one `pDoc` step on a nonempty input. -/
theorem pDoc_step (fuel : Nat) (c : Char) (cs : List Char) :
    pDoc (fuel + 1) (c :: cs) =
      match pField (c :: cs) with
      | none => none
      | some (f, .eof, _) => some [[f]]
      | some (f, .comma, rest) =>
          (match pDoc fuel rest with
          | some (row :: rows) => some ((f :: row) :: rows)
          | _ => none)
      | some (f, .nl, rest) =>
          (match pDoc fuel rest with
          | some rows => some ([f] :: rows)
          | none => none) := rfl

/-- Helper: one `pDoc` step when the first field ends at a newline. -/
theorem pDoc_step_nl (fuel : Nat) (c : Char) (cs f rest : List Char)
    (h : pField (c :: cs) = some (f, .nl, rest)) :
    pDoc (fuel + 1) (c :: cs) =
      (match pDoc fuel rest with
      | some rows => some ([f] :: rows)
      | none => none) := by
  rw [pDoc_step, h]

/-- Helper: one `pDoc` step when the first field ends at a comma. -/
theorem pDoc_step_comma (fuel : Nat) (c : Char) (cs f rest : List Char)
    (h : pField (c :: cs) = some (f, .comma, rest)) :
    pDoc (fuel + 1) (c :: cs) =
      (match pDoc fuel rest with
      | some (row :: rows) => some ((f :: row) :: rows)
      | _ => none) := by
  rw [pDoc_step, h]

/-- Helper: a row of two or more fields starts with its first quoted
field and a comma. -/
theorem renderQRows_cons_cons (f g : List Char) (fs' : List (List Char))
    (rows' : List (List (List Char))) :
    renderQRows ((f :: g :: fs') :: rows') =
      quoteField f ++ ',' :: renderQRows ((g :: fs') :: rows') := by
  cases rows' with
  | nil => simp [renderQRows, renderQRow, joinWith]
  | cons r2 rest =>
      simp [renderQRows, renderQRow, joinWith, List.append_assoc]

/-- Helper: a single-field row followed by further rows starts with its
quoted field and a newline. -/
theorem renderQRows_single_cons (f : List Char) (r2 : List (List Char))
    (rest : List (List (List Char))) :
    renderQRows ([f] :: r2 :: rest) =
      quoteField f ++ '\n' :: renderQRows (r2 :: rest) := by
  simp [renderQRows, renderQRow, joinWith]

/-- Helper: `escRep` never shrinks its input. -/
theorem escRep_length_ge (s : List Char) : s.length ≤ (escRep s).length := by
  induction s with
  | nil => simp [escRep]
  | cons c cs ih =>
      by_cases hc : c = '"' <;> simp [escRep, hc] <;> omega

/-- Helper: the parser of quoted rows inverts the renderer. -/
theorem pDoc_renderQRows (fuel : Nat) (rows : List (List (List Char)))
    (hne : rows ≠ []) (hrow : ∀ r ∈ rows, r ≠ [])
    (hfuel : (renderQRows rows).length < fuel) :
    pDoc fuel (renderQRows rows) = some rows := by
  induction fuel generalizing rows with
  | zero => omega
  | succ fu ih =>
      match rows, hne with
      | r :: rows', _ =>
        match r, hrow r (List.mem_cons_self r rows') with
        | f :: fs, _ =>
          match fs, rows' with
          | [], [] =>
              have hshape : renderQRows [[f]] = '"' :: (escRep f ++ ['"']) := by
                simp [renderQRows, renderQRow, joinWith, quoteField]
              rw [hshape, pDoc_step, pField_quoted_eof]
          | [], r2 :: rest =>
              have hshape : renderQRows ([f] :: r2 :: rest) =
                  '"' :: (escRep f ++ '"' :: '\n' :: renderQRows (r2 :: rest)) := by
                rw [renderQRows_single_cons]
                simp [quoteField, List.append_assoc]
              rw [hshape,
                pDoc_step_nl fu _ _ f (renderQRows (r2 :: rest))
                  (pField_quoted_nl f (renderQRows (r2 :: rest)))]
              have hlen : (renderQRows (r2 :: rest)).length < fu := by
                rw [hshape] at hfuel
                simp only [List.length_cons, List.length_append] at hfuel
                omega
              rw [ih (r2 :: rest) (by simp)
                (fun r hr => hrow r (List.mem_cons_of_mem _ hr)) hlen]
          | g :: fs', rows' =>
              have hshape : renderQRows ((f :: g :: fs') :: rows') =
                  '"' :: (escRep f ++ '"' :: ',' ::
                    renderQRows ((g :: fs') :: rows')) := by
                rw [renderQRows_cons_cons]
                simp [quoteField, List.append_assoc]
              rw [hshape,
                pDoc_step_comma fu _ _ f (renderQRows ((g :: fs') :: rows'))
                  (pField_quoted_comma f (renderQRows ((g :: fs') :: rows')))]
              have hlen : (renderQRows ((g :: fs') :: rows')).length < fu := by
                rw [hshape] at hfuel
                simp only [List.length_cons, List.length_append] at hfuel
                omega
              rw [ih ((g :: fs') :: rows') (by simp) ?_ hlen]
              intro r2 hr2
              rcases List.mem_cons.mp hr2 with h | h
              · subst h; simp
              · exact hrow r2 (List.mem_cons_of_mem _ h)

/-- A field the raw-field parser passes through unchanged: free of
separators and not starting with a quote. -/
def PlainField (f : List Char) : Prop :=
  (∀ c ∈ f, c ≠ ',' ∧ c ≠ '\n') ∧ f.head? ≠ some '"'

instance (f : List Char) : Decidable (PlainField f) := by
  unfold PlainField
  infer_instance

/-- Helper: the raw-field parser stops at the first comma. -/
theorem pRaw_plain_comma (f t : List Char)
    (hf : ∀ c ∈ f, c ≠ ',' ∧ c ≠ '\n') :
    pRaw (f ++ ',' :: t) = (f, .comma, t) := by
  induction f with
  | nil => simp [pRaw]
  | cons c f' ih =>
      have hc := hf c (List.mem_cons_self c f')
      have ih' := ih (fun d hd => hf d (List.mem_cons_of_mem _ hd))
      simp [pRaw, hc.1, hc.2, ih']

/-- Helper: the raw-field parser stops at the first newline. -/
theorem pRaw_plain_nl (f t : List Char)
    (hf : ∀ c ∈ f, c ≠ ',' ∧ c ≠ '\n') :
    pRaw (f ++ '\n' :: t) = (f, .nl, t) := by
  induction f with
  | nil => simp [pRaw]
  | cons c f' ih =>
      have hc := hf c (List.mem_cons_self c f')
      have ih' := ih (fun d hd => hf d (List.mem_cons_of_mem _ hd))
      simp [pRaw, hc.1, hc.2, ih']

/-- Helper: a plain field followed by a comma. -/
theorem pField_plain_comma (f t : List Char) (hf : PlainField f) :
    pField (f ++ ',' :: t) = some (f, .comma, t) := by
  cases f with
  | nil =>
      simp only [List.nil_append, pField]
      rw [if_neg (by decide)]
      simp [pRaw]
  | cons c f' =>
      have hc : c ≠ '"' := by
        intro hcon
        exact hf.2 (by simp [hcon])
      simp only [List.cons_append, pField, if_neg hc]
      rw [show c :: (f' ++ ',' :: t) = (c :: f') ++ ',' :: t from rfl,
        pRaw_plain_comma (c :: f') t hf.1]

/-- Helper: a plain field followed by a newline. -/
theorem pField_plain_nl (f t : List Char) (hf : PlainField f) :
    pField (f ++ '\n' :: t) = some (f, .nl, t) := by
  cases f with
  | nil =>
      simp only [List.nil_append, pField]
      rw [if_neg (by decide)]
      simp [pRaw]
  | cons c f' =>
      have hc : c ≠ '"' := by
        intro hcon
        exact hf.2 (by simp [hcon])
      simp only [List.cons_append, pField, if_neg hc]
      rw [show c :: (f' ++ '\n' :: t) = (c :: f') ++ '\n' :: t from rfl,
        pRaw_plain_nl (c :: f') t hf.1]

/-- Helper: one `pDoc` step at a newline, for any nonempty input. -/
theorem pDoc_nl_of_ne (fuel : Nat) (cs f rest : List Char) (hne : cs ≠ [])
    (h : pField cs = some (f, .nl, rest)) :
    pDoc (fuel + 1) cs =
      (match pDoc fuel rest with
      | some rows => some ([f] :: rows)
      | none => none) := by
  cases cs with
  | nil => cases hne rfl
  | cons c cs' => exact pDoc_step_nl fuel c cs' f rest h

/-- Helper: one `pDoc` step at a comma, for any nonempty input. -/
theorem pDoc_comma_of_ne (fuel : Nat) (cs f rest : List Char) (hne : cs ≠ [])
    (h : pField cs = some (f, .comma, rest)) :
    pDoc (fuel + 1) cs =
      (match pDoc fuel rest with
      | some (row :: rows) => some ((f :: row) :: rows)
      | _ => none) := by
  cases cs with
  | nil => cases hne rfl
  | cons c cs' => exact pDoc_step_comma fuel c cs' f rest h

/-- Helper: `joinWith` over a two-or-more list. -/
theorem joinWith_cons_cons (sep : Char) (f g : List Char)
    (rest : List (List Char)) :
    joinWith sep (f :: g :: rest) = f ++ sep :: joinWith sep (g :: rest) := by
  simp [joinWith]

/-- Helper: a row of plain fields followed by a block of quoted rows
parses as that row and those rows. -/
theorem pDoc_plainRow (fs : List (List Char))
    (rows : List (List (List Char))) (fuel : Nat) (hfs : fs ≠ [])
    (hplain : ∀ f ∈ fs, PlainField f)
    (hrows : rows ≠ []) (hrow : ∀ r ∈ rows, r ≠ [])
    (hfuel : (joinWith ',' fs ++ '\n' :: renderQRows rows).length < fuel) :
    pDoc fuel (joinWith ',' fs ++ '\n' :: renderQRows rows) =
      some (fs :: rows) := by
  induction fs generalizing fuel with
  | nil => cases hfs rfl
  | cons f fs' ih =>
      cases fuel with
      | zero => omega
      | succ fu =>
          cases fs' with
          | nil =>
              have hjoin : joinWith ',' [f] = f := by simp [joinWith]
              rw [hjoin] at hfuel ⊢
              have hne : f ++ '\n' :: renderQRows rows ≠ [] := by
                intro hcon
                exact absurd (congrArg List.length hcon) (by simp)
              rw [pDoc_nl_of_ne fu _ f (renderQRows rows) hne
                (pField_plain_nl f (renderQRows rows)
                  (hplain f (List.mem_cons_self f [])))]
              have hlen : (renderQRows rows).length < fu := by
                simp only [List.length_append, List.length_cons] at hfuel
                omega
              rw [pDoc_renderQRows fu rows hrows hrow hlen]
          | cons g fs'' =>
              rw [joinWith_cons_cons] at hfuel ⊢
              have hassoc :
                  (f ++ ',' :: joinWith ',' (g :: fs'')) ++
                      '\n' :: renderQRows rows =
                    f ++ ',' :: (joinWith ',' (g :: fs'') ++
                      '\n' :: renderQRows rows) := by
                simp
              rw [hassoc] at hfuel ⊢
              have hne : f ++ ',' :: (joinWith ',' (g :: fs'') ++
                  '\n' :: renderQRows rows) ≠ [] := by
                intro hcon
                exact absurd (congrArg List.length hcon) (by simp)
              rw [pDoc_comma_of_ne fu _ f _ hne
                (pField_plain_comma f _ (hplain f (List.mem_cons_self f _)))]
              have hlen : (joinWith ',' (g :: fs'') ++
                  '\n' :: renderQRows rows).length < fu := by
                simp only [List.length_append, List.length_cons] at hfuel ⊢
                omega
              rw [ih fu (by simp)
                (fun x hx => hplain x (List.mem_cons_of_mem _ hx)) hlen]

/-! ### The export theorems -/

/-- Helper: a string field passes through the escaping untouched. -/
theorem fieldString_vstr (s : String) : fieldString (.vstr s) = s.data := by
  by_cases h : s = ""
  · subst h; rfl
  · simp [fieldString, jsFalsy, jsValToString, h]

/-- Helper: the rendered quantity string is the quantity, or 1 when the
quantity is zero. -/
theorem fieldString_qty (q : Int) :
    fieldString (jsOr (.vnum q) (.vnum 1)) =
      (toString (if q = 0 then (1 : Int) else q)).data := by
  by_cases h : q = 0
  · subst h; rfl
  · simp [jsOr, jsFalsy, fieldString, jsValToString, h]

/-- Helper: the raw strings of an exported shipping entry. -/
theorem rawStrings_toCsvItem (e : ShippingEntry) :
    rawStrings (toCsvItem e) =
      [e.instagramId.data, e.name.data, e.phone.data, [], [],
       e.address.data, e.productName.data, e.size.data,
       (toString (if e.quantity = 0 then (1 : Int) else e.quantity)).data,
       e.message.data] := by
  simp [rawStrings, toCsvItem, fieldString_vstr, fieldString_qty]

/-- Helper: one rendered data line is a quoted row of the raw strings. -/
theorem rowLine_eq (item : CsvItem) :
    joinWith ',' (rowFields item) = renderQRow (rawStrings item) := rfl

/-- Helper: the blob is the byte-order marker, the header line, and the
quoted rows. -/
theorem downloadCSV_body (data : List CsvItem) (h : data ≠ []) :
    downloadCSV data =
      some ('﻿' :: (joinWith ',' (customHeaders.map String.data) ++
        '\n' :: renderQRows (data.map rawStrings))) := by
  cases data with
  | nil => cases h rfl
  | cons d data' =>
      simp only [downloadCSV, if_neg h]
      congr 1
      rw [show (d :: data').map (fun item => joinWith ',' (rowFields item)) =
          (d :: data').map (fun item => renderQRow (rawStrings item)) from rfl]
      rw [show headerLine = joinWith ',' (customHeaders.map String.data)
        from rfl]
      rw [List.map_cons, joinWith_cons_cons]
      congr 1
      simp only [renderQRows, List.map_map]
      rfl

/-- C5 (amended).  CSV export: for a non-empty entry list the output is
the byte-order marker, the fixed ten-column header line, then one line
per entry with every field wrapped in doubled-quote escaping; a standard
CSV reader run on the output after the marker recovers the header row
and, for each entry, every string field exactly (with the two fixed
columns empty), while the quantity column reads back as the string of
the quantity except that a zero quantity reads back as "1".  For an
empty entry list nothing is emitted. -/
theorem csv_export_spec (entries : List ShippingEntry) (h : entries ≠ []) :
    (∃ body : List Char,
      downloadCSV (entries.map toCsvItem) = some ('﻿' :: body) ∧
      body = joinWith ',' (customHeaders.map String.data) ++
        '\n' :: renderQRows ((entries.map toCsvItem).map rawStrings) ∧
      csvParse body =
        some ((customHeaders.map String.data) ::
          entries.map (fun e =>
            [e.instagramId.data, e.name.data, e.phone.data, [], [],
             e.address.data, e.productName.data, e.size.data,
             (toString (if e.quantity = 0 then (1 : Int) else e.quantity)).data,
             e.message.data]))) ∧
    downloadCSV [] = none := by
  have hmap : entries.map toCsvItem ≠ [] := by
    intro hc
    exact h (List.map_eq_nil_iff.mp hc)
  refine ⟨⟨_, downloadCSV_body _ hmap, rfl, ?_⟩, rfl⟩
  have hrows : (entries.map toCsvItem).map rawStrings ≠ [] := by
    intro hc
    exact hmap (List.map_eq_nil_iff.mp hc)
  have hrow : ∀ r ∈ (entries.map toCsvItem).map rawStrings, r ≠ [] := by
    intro r hr
    obtain ⟨item, -, rfl⟩ := List.mem_map.mp hr
    simp [rawStrings]
  have hparse := pDoc_plainRow (customHeaders.map String.data)
    ((entries.map toCsvItem).map rawStrings)
    ((joinWith ',' (customHeaders.map String.data) ++
      '\n' :: renderQRows ((entries.map toCsvItem).map rawStrings)).length + 1)
    (by decide) (by decide) hrows hrow (Nat.lt_succ_self _)
  rw [csvParse, hparse]
  congr 1
  congr 1
  rw [List.map_map]
  have : (rawStrings ∘ toCsvItem) = fun e : ShippingEntry =>
      [e.instagramId.data, e.name.data, e.phone.data, [], [],
       e.address.data, e.productName.data, e.size.data,
       (toString (if e.quantity = 0 then (1 : Int) else e.quantity)).data,
       e.message.data] := funext (fun e => rawStrings_toCsvItem e)
  rw [this]

/-- Concrete entry with quantity 0, used to refute the exact round-trip. -/
def entryQty0 : ShippingEntry :=
  { id := "e9", status := .preparing, submitDate := "2026-01-01",
    instagramId := "abc", name := "n", phone := "p", address := "a",
    message := "m", extra := "", productName := "Tee", size := "M",
    quantity := 0, adminMemo := "" }

/-- C5 counterexample: for the singleton list holding `entryQty0` (whose
quantity is 0), parsing the export back yields "1" in the quantity
column, not "0" — the round trip does not reproduce every entry field
exactly. -/
theorem csv_quantity_counterexample :
    (downloadCSV [toCsvItem entryQty0]).map (fun out => csvParse (out.drop 1)) =
      some (some [customHeaders.map String.data,
        ["abc".data, "n".data, "p".data, [], [], "a".data, "Tee".data,
         "M".data, "1".data, "m".data]]) ∧
    toString entryQty0.quantity = "0" ∧
    ("1".data : List Char) ≠ "0".data := by
  refine ⟨rfl, rfl, by decide⟩

/-- C10.  CSV falsy rendering: the quantity column renders the string of
the quantity when it is truthy and "1" when it is falsy — in particular
a zero quantity is exported as "1" — and every falsy field value
(empty string, null, undefined, zero) in any column renders as the empty
quoted string. -/
theorem csv_falsy_default_spec (item : CsvItem) :
    (jsFalsy item.quantity = true →
      (rowFields item)[8]? = some ['"', '1', '"']) ∧
    (jsFalsy item.quantity = false →
      (rowFields item)[8]? =
        some (quoteField (jsValToString item.quantity).data)) ∧
    (item.quantity = .vnum 0 →
      (rowFields item)[8]? = some ['"', '1', '"']) ∧
    (∀ v : JsVal, jsFalsy v = true → escapeJS v = ['"', '"']) ∧
    (jsFalsy item.instagramId = true →
      (rowFields item)[0]? = some ['"', '"']) := by
  have hfalsy : ∀ v : JsVal, jsFalsy v = true → escapeJS v = ['"', '"'] := by
    intro v hv
    simp [escapeJS, fieldString, hv, quoteField, escRep, jsValToString]
  have h8 : (rowFields item)[8]? =
      some (escapeJS (jsOr item.quantity (.vnum 1))) := rfl
  have h0 : (rowFields item)[0]? = some (escapeJS item.instagramId) := rfl
  refine ⟨?_, ?_, ?_, hfalsy, ?_⟩
  · intro h
    rw [h8, show jsOr item.quantity (.vnum 1) = .vnum 1 from by
      simp [jsOr, h]]
    rfl
  · intro h
    rw [h8, show jsOr item.quantity (.vnum 1) = item.quantity from by
      simp [jsOr, h]]
    simp [escapeJS, fieldString, h]
  · intro h
    rw [h8, h]
    rfl
  · intro h
    rw [h0, hfalsy item.instagramId h]

/-- Concrete loosely-typed row used by witnesses: a null instagram id and
a zero quantity. -/
def itemWit : CsvItem :=
  { instagramId := .vnull, name := .vstr "n", phone := .vstr "p",
    address := .vstr "a", productName := .vstr "t", size := .vstr "M",
    quantity := .vnum 0, message := .vundef }

/-- Witness for C10 at a concrete row: the zero quantity renders as "1"
and the null instagram id renders as the empty quoted string. -/
theorem csv_falsy_default_spec_witness :
    (rowFields itemWit)[8]? = some ['"', '1', '"'] ∧
    (rowFields itemWit)[0]? = some ['"', '"'] := by
  constructor
  · exact (csv_falsy_default_spec itemWit).1 rfl
  · exact (csv_falsy_default_spec itemWit).2.2.2.2 rfl

/-- Witness for C5 (amended) at a concrete entry list, following the
spec's round-trip example. -/
theorem csv_export_spec_witness :
    (∃ body : List Char,
      downloadCSV ([entryWit].map toCsvItem) = some ('﻿' :: body) ∧
      body = joinWith ',' (customHeaders.map String.data) ++
        '\n' :: renderQRows (([entryWit].map toCsvItem).map rawStrings) ∧
      csvParse body =
        some ((customHeaders.map String.data) ::
          [entryWit].map (fun e =>
            [e.instagramId.data, e.name.data, e.phone.data, [], [],
             e.address.data, e.productName.data, e.size.data,
             (toString (if e.quantity = 0 then (1 : Int) else e.quantity)).data,
             e.message.data]))) ∧
    downloadCSV [] = none := by
  exact csv_export_spec [entryWit] (by decide)

end Nuuanu
